import Mathlib

/-!
# Verification of the fireflycore/go-proxy gRPC transparent proxy core

This development shallowly embeds the core of the `grpc` package of the
repository (handler.go, raw_proto_codec.go, proto_codec.go, proxy.go):

* the Frame / raw codec pair (`RawProtoFrame`, `RawProtoCodec.Marshal`,
  `RawProtoCodec.Unmarshal`), at two levels of abstraction: a value-level
  model for byte-content properties, and a store-level model with explicit
  backing arrays for aliasing properties of the Go slice operations;
* the stream director (`DefaultDirector`), with contexts carrying metadata
  references into an explicit metadata store, so that copy-vs-reference
  semantics of `metadata.MD.Copy` are expressible;
* the relay engine (`Handler.Handler`): its setup phase and the two-iteration
  reconciliation `select` loop, modelled as a function over the ordered list
  of reports delivered by the two forwarding goroutines' result channels;
* the two forwarding goroutines (`Handler.ForwardOutboundToInbound`,
  `Handler.ForwardInboundToOutbound`), modelled as functions from a stream
  environment (messages successfully received, the terminal receive error,
  header and send outcomes) to the trace of actions they perform and the
  error they report on their result channel;
* the restricted-mode registrar (`RegisterService`), together with a model of
  the host gRPC server dispatch (which is not part of this repository).

Go values are modelled as follows: `[]byte` contents as `List Nat`, a
possibly-nil slice as `Option`, `error` values as the inductive `GoErr`
(with `io.EOF` a distinguished constructor, since the code compares errors
to `io.EOF` by equality), gRPC status codes as `StatusCode`, and metadata
`metadata.MD` as an association list from keys to value lists.
-/

/-- Raw bytes of one wire-level message. -/
abbrev Bytes := List Nat

/-- gRPC status codes used by handler.go (`codes.Internal`, `codes.Unavailable`)
plus `codes.Unimplemented` (produced by the host server for unregistered
methods) and a catch-all for any other numeric code. -/
inductive StatusCode where
  | internal
  | unavailable
  | unimplemented
  | otherCode (n : Nat)
deriving DecidableEq, Repr

/-- Go `error` values as the proxy observes them: `io.EOF` (compared by
equality in handler.go), a gRPC status error with code and message, or any
other error identified by its message. -/
inductive GoErr where
  | eof
  | status (code : StatusCode) (msg : String)
  | other (msg : String)
deriving DecidableEq, Repr

/-- Rendering of an error used where the Go code formats an error with
percent-v into a message string. -/
def GoErr.str : GoErr → String
  | .eof => "EOF"
  | .status _ m => m
  | .other m => m

/-! ## Raw codec, value-level model (raw_proto_codec.go)

`RawProtoFrame` holds one raw protobuf message. A Go byte slice can be nil;
`Option Bytes` keeps that distinction (`none` is a nil slice), because
`Unmarshal` explicitly writes `f.Payload = nil` for empty input. -/

/-- The frame container of raw_proto_codec.go: `Payload` is the raw
serialized bytes of one message (`none` models a nil Go slice). -/
structure RawProtoFrame where
  Payload : Option Bytes
deriving DecidableEq, Repr

/-- Byte content of a frame's payload; a nil payload has no bytes. -/
def RawProtoFrame.payloadBytes (f : RawProtoFrame) : Bytes :=
  f.Payload.getD []

/-- Length of a possibly-nil Go byte slice (`len` in Go is 0 on nil). -/
def goLen (data : Option Bytes) : Nat :=
  (data.getD []).length

namespace RawProtoCodec

/-- The Frame branch of `RawProtoCodec.Marshal`: returns the payload slice
directly (no copy) and a nil error. -/
def Marshal (f : RawProtoFrame) : Option Bytes × Option GoErr :=
  (f.Payload, none)

/-- The Frame branch of `RawProtoCodec.Unmarshal` at value level: empty (or
nil) input sets the payload to nil explicitly; otherwise
`append(f.Payload[:0], data...)` leaves the payload holding exactly the
bytes of `data`. Returns the nil error of that branch. -/
def Unmarshal (data : Option Bytes) (f : RawProtoFrame) : Option GoErr × RawProtoFrame :=
  if goLen data = 0 then
    (none, { Payload := none })
  else
    (none, { Payload := some (data.getD []) })

end RawProtoCodec

/-! ## Raw codec, store-level model (raw_proto_codec.go)

To reason about slice aliasing (`append(f.Payload[:0], data...)` copies the
bytes of `data` into the frame's own or a freshly allocated backing array,
never keeping a reference to the caller's array), slices are modelled with
explicit backing arrays held in a store. A `GoSlice` starts at offset 0 of
its array (all slices the codec manipulates do). -/

/-- A Go slice value: index of its backing array in the store, its length and
its capacity. -/
structure GoSlice where
  arr : Nat
  len : Nat
  cap : Nat
deriving DecidableEq, Repr

/-- The heap of byte arrays backing slices; `arrays.length` is the next fresh
array index. -/
structure ByteStore where
  arrays : List Bytes
deriving DecidableEq, Repr

/-- Contents of a backing array. -/
def ByteStore.get (s : ByteStore) (a : Nat) : Bytes :=
  s.arrays.getD a []

/-- Overwrite a backing array (models mutation through any slice over it). -/
def ByteStore.write (s : ByteStore) (a : Nat) (l : Bytes) : ByteStore :=
  ⟨s.arrays.set a l⟩

/-- Bytes visible through a slice. -/
def GoSlice.read (sl : GoSlice) (s : ByteStore) : Bytes :=
  (s.get sl.arr).take sl.len

/-- A slice whose backing array exists in the store. -/
def GoSlice.validIn (sl : GoSlice) (s : ByteStore) : Prop :=
  sl.arr < s.arrays.length

instance (sl : GoSlice) (s : ByteStore) : Decidable (sl.validIn s) :=
  inferInstanceAs (Decidable (_ < _))

/-- The frame container with its payload as a possibly-nil slice into the
store (`none` models a nil Go slice). -/
structure FrameS where
  Payload : Option GoSlice
deriving DecidableEq, Repr

/-- Bytes currently held by a frame's payload. -/
def FrameS.payloadBytes (f : FrameS) (s : ByteStore) : Bytes :=
  match f.Payload with
  | some p => p.read s
  | none => []

/-- Go's `append(dst[:0], data...)`: if the destination slice exists and its
capacity suffices, the bytes of `data` are copied into its backing array
(which keeps whatever lay beyond them); otherwise a fresh array holding
`data` is allocated. Returns the updated store and the resulting slice. -/
def appendFrom0 (s : ByteStore) (dst : Option GoSlice) (data : Bytes) :
    ByteStore × GoSlice :=
  match dst with
  | some d =>
    if data.length ≤ d.cap then
      (s.write d.arr (data ++ (s.get d.arr).drop data.length),
       ⟨d.arr, data.length, d.cap⟩)
    else
      (⟨s.arrays ++ [data]⟩, ⟨s.arrays.length, data.length, data.length⟩)
  | none =>
    (⟨s.arrays ++ [data]⟩, ⟨s.arrays.length, data.length, data.length⟩)

/-- The Frame branch of `RawProtoCodec.Unmarshal` at store level: reads the
caller's `data` slice, sets the payload to nil on empty input, and otherwise
stores `append(f.Payload[:0], data...)` as the new payload. Returns the nil
error of that branch, the updated store and the updated frame. -/
def RawProtoCodec.UnmarshalS (s : ByteStore) (dataSl : Option GoSlice)
    (f : FrameS) : Option GoErr × ByteStore × FrameS :=
  let data := match dataSl with
    | some sl => sl.read s
    | none => []
  if data.length = 0 then
    (none, s, { Payload := none })
  else
    let res := appendFrom0 s f.Payload data
    (none, res.1, { Payload := some res.2 })

/-- Writing one array does not disturb reads of another. -/
lemma ByteStore.get_write_ne (s : ByteStore) {i j : Nat} (l : Bytes)
    (h : i ≠ j) : (s.write i l).get j = s.get j := by
  simp [ByteStore.write, ByteStore.get, List.getD, List.getElem?_set_ne h]

/-- Writing an existing array replaces its contents. -/
lemma ByteStore.get_write_self (s : ByteStore) {i : Nat} (l : Bytes)
    (h : i < s.arrays.length) : (s.write i l).get i = l := by
  simp [ByteStore.write, ByteStore.get, List.getD, List.getElem?_set_self', h]

/-- A freshly appended array is read back unchanged. -/
lemma ByteStore.get_push_fresh (s : ByteStore) (l : Bytes) :
    (ByteStore.mk (s.arrays ++ [l])).get s.arrays.length = l := by
  simp [ByteStore.get, List.getD_append_right]

/-- Appending a fresh array preserves reads of existing arrays. -/
lemma ByteStore.get_push_lt (s : ByteStore) (l : Bytes) {j : Nat}
    (h : j < s.arrays.length) :
    (ByteStore.mk (s.arrays ++ [l])).get j = s.get j := by
  simp only [ByteStore.get]
  rw [List.getD_append _ _ _ _ h]

/-- C5: For every Frame f, marshaling f with the Raw Codec and unmarshaling
the resulting bytes into a Frame (any Frame, in any prior state) yields a
Frame whose payload bytes are identical to f's payload bytes. -/
theorem C5_raw_codec_roundtrip (f g : RawProtoFrame) :
    (RawProtoCodec.Unmarshal (RawProtoCodec.Marshal f).1 g).2.payloadBytes
      = f.payloadBytes := by
  rcases f with ⟨_ | ⟨_ | ⟨b, l⟩⟩⟩ <;>
    simp [RawProtoCodec.Marshal, RawProtoCodec.Unmarshal, goLen,
      RawProtoFrame.payloadBytes]

/-- C6: Unmarshal fully overwrites the frame's prior payload with exactly the
input bytes — the result does not depend on the frame's prior payload — and
unmarshaling a nil or empty byte sequence into any (in particular a
previously-populated) Frame leaves the payload nil. -/
theorem C6_unmarshal_overwrites (data : Option Bytes) (f g : RawProtoFrame) :
    (RawProtoCodec.Unmarshal data f).2 = (RawProtoCodec.Unmarshal data g).2
    ∧ (RawProtoCodec.Unmarshal data f).2.payloadBytes = data.getD []
    ∧ (RawProtoCodec.Unmarshal none f).2.Payload = none
    ∧ (RawProtoCodec.Unmarshal (some []) f).2.Payload = none := by
  refine ⟨?_, ?_, ?_, ?_⟩ <;>
    rcases data with _ | ⟨_ | ⟨b, l⟩⟩ <;>
      simp [RawProtoCodec.Unmarshal, goLen, RawProtoFrame.payloadBytes]

/-- Reading a slice is unaffected by writing a different backing array. -/
lemma GoSlice.read_write_ne (sl : GoSlice) (s : ByteStore) (j : Nat)
    (nb : Bytes) (h : j ≠ sl.arr) : sl.read (s.write j nb) = sl.read s := by
  simp [GoSlice.read, ByteStore.get_write_ne _ _ h]

/-- After the append the resulting slice reads back exactly the appended
bytes, provided the destination's backing array (if any) exists. -/
lemma appendFrom0_read (s : ByteStore) (dst : Option GoSlice) (data : Bytes)
    (hdst : ∀ p, dst = some p → p.arr < s.arrays.length) :
    (appendFrom0 s dst data).2.read (appendFrom0 s dst data).1 = data := by
  rcases dst with _ | d
  · simp [appendFrom0, GoSlice.read, ByteStore.get_push_fresh]
  · by_cases hcap : data.length ≤ d.cap
    · have hlt : d.arr < s.arrays.length := hdst d rfl
      simp [appendFrom0, hcap, GoSlice.read,
        ByteStore.get_write_self _ _ hlt]
    · simp [appendFrom0, hcap, GoSlice.read, ByteStore.get_push_fresh]

/-- The backing array of the appended slice is either the destination's own
array or a fresh one. -/
lemma appendFrom0_arr (s : ByteStore) (dst : Option GoSlice) (data : Bytes) :
    (appendFrom0 s dst data).2.arr = s.arrays.length
    ∨ ∃ d, dst = some d ∧ (appendFrom0 s dst data).2.arr = d.arr := by
  rcases dst with _ | d
  · left; simp [appendFrom0]
  · by_cases hcap : data.length ≤ d.cap
    · right; exact ⟨d, rfl, by simp [appendFrom0, hcap]⟩
    · left; simp [appendFrom0, hcap]

/-- C10: On the Frame path, Unmarshal always returns a nil error (also for a
nil input slice), and the payload it stores is a private copy of the input
bytes: its backing array is never the caller's array, it reads back exactly
the input bytes, and overwriting the caller's array afterwards leaves the
stored payload unchanged. Hypotheses: the caller's slice is backed by an
array of the store, and the frame's prior payload (if any) is backed by an
existing array distinct from the caller's — i.e. the frame does not already
alias the input, which is how gRPC hands the codec its receive buffer. -/
theorem C10_unmarshal_total_and_copying (s : ByteStore) (dsl : GoSlice)
    (f : FrameS) (hd : dsl.validIn s)
    (hf : ∀ p, f.Payload = some p → p.arr ≠ dsl.arr ∧ p.validIn s) :
    (RawProtoCodec.UnmarshalS s (some dsl) f).1 = none
    ∧ (RawProtoCodec.UnmarshalS s none f).1 = none
    ∧ (∀ p, (RawProtoCodec.UnmarshalS s (some dsl) f).2.2.Payload = some p →
        p.arr ≠ dsl.arr)
    ∧ (RawProtoCodec.UnmarshalS s (some dsl) f).2.2.payloadBytes
        (RawProtoCodec.UnmarshalS s (some dsl) f).2.1 = dsl.read s
    ∧ ∀ nb, (RawProtoCodec.UnmarshalS s (some dsl) f).2.2.payloadBytes
        (((RawProtoCodec.UnmarshalS s (some dsl) f).2.1).write dsl.arr nb)
      = (RawProtoCodec.UnmarshalS s (some dsl) f).2.2.payloadBytes
          (RawProtoCodec.UnmarshalS s (some dsl) f).2.1 := by
  have hdlt : dsl.arr < s.arrays.length := hd
  have harrne : (appendFrom0 s f.Payload (dsl.read s)).2.arr ≠ dsl.arr := by
    rcases appendFrom0_arr s f.Payload (dsl.read s) with h | ⟨d, hdp, h⟩
    · omega
    · rw [h]; exact (hf d hdp).1
  by_cases hlen : (dsl.read s).length = 0
  · refine ⟨?_, ?_, ?_, ?_, ?_⟩ <;>
      simp [RawProtoCodec.UnmarshalS, hlen, FrameS.payloadBytes,
        List.length_eq_zero.mp hlen]
  · have hvalid : ∀ p, f.Payload = some p → p.arr < s.arrays.length :=
      fun p hp => (hf p hp).2
    refine ⟨?_, ?_, ?_, ?_, ?_⟩
    · simp [RawProtoCodec.UnmarshalS, hlen]
    · simp [RawProtoCodec.UnmarshalS]
    · intro p hp
      simp only [RawProtoCodec.UnmarshalS, hlen, if_false,
        Option.some.injEq] at hp
      exact hp ▸ harrne
    · simpa [RawProtoCodec.UnmarshalS, hlen, FrameS.payloadBytes] using
        appendFrom0_read s f.Payload (dsl.read s) hvalid
    · intro nb
      simp only [RawProtoCodec.UnmarshalS, hlen, if_false,
        FrameS.payloadBytes]
      exact GoSlice.read_write_ne _ _ _ _ (Ne.symm harrne)

/-- Concrete instantiation of C10: a two-array store where array 0 backs the
caller's data slice and array 1 backs the frame's previous payload. -/
theorem C10_witness :
    let s : ByteStore := ⟨[[1, 2, 3], [9]]⟩
    let dsl : GoSlice := ⟨0, 3, 3⟩
    let f : FrameS := ⟨some ⟨1, 1, 1⟩⟩
    (RawProtoCodec.UnmarshalS s (some dsl) f).1 = none
    ∧ (RawProtoCodec.UnmarshalS s none f).1 = none
    ∧ (∀ p, (RawProtoCodec.UnmarshalS s (some dsl) f).2.2.Payload = some p →
        p.arr ≠ dsl.arr)
    ∧ (RawProtoCodec.UnmarshalS s (some dsl) f).2.2.payloadBytes
        (RawProtoCodec.UnmarshalS s (some dsl) f).2.1 = dsl.read s
    ∧ ∀ nb, (RawProtoCodec.UnmarshalS s (some dsl) f).2.2.payloadBytes
        (((RawProtoCodec.UnmarshalS s (some dsl) f).2.1).write dsl.arr nb)
      = (RawProtoCodec.UnmarshalS s (some dsl) f).2.2.payloadBytes
          (RawProtoCodec.UnmarshalS s (some dsl) f).2.1 :=
  C10_unmarshal_total_and_copying ⟨[[1, 2, 3], [9]]⟩ ⟨0, 3, 3⟩ ⟨some ⟨1, 1, 1⟩⟩
    (by decide)
    (by intro p hp; refine ⟨?_, ?_⟩ <;>
          simp_all <;> simp [GoSlice.validIn, ← hp])

/-! ## Metadata and the default director (proto_codec.go, director part)

`metadata.MD` is a map from keys to lists of values, modelled as an
association list. Contexts carry their incoming/outgoing metadata as
references into an explicit metadata store, so that `md.Copy()` (which
allocates a fresh map with fresh value slices) is distinguishable from
passing the incoming map by reference. -/

/-- Metadata map: keys with their value lists. -/
abbrev MD := List (String × List String)

/-- Deep copy of a metadata map (`metadata.MD.Copy`): fresh map, each value
slice copied element by element. -/
def MD.copy (md : MD) : MD :=
  md.map (fun kv => (kv.1, kv.2.map (fun v => v)))

/-- A deep copy carries exactly the same keys and values. -/
lemma MD.copy_eq (md : MD) : MD.copy md = md := by
  simp [MD.copy]

/-- Heap of metadata maps; a context holds references into it. -/
structure MDStore where
  cells : List MD
deriving DecidableEq, Repr

/-- Read the metadata behind a reference; a context without metadata (no
reference) reads as the empty map, matching `FromIncomingContext` returning
an empty MD when none is attached. -/
def MDStore.readRef (s : MDStore) (r : Option Nat) : MD :=
  match r with
  | some i => s.cells.getD i []
  | none => []

/-- Overwrite the metadata map behind reference i (models mutation of the
map by whoever holds it). -/
def MDStore.writeRef (s : MDStore) (i : Nat) (md : MD) : MDStore :=
  ⟨s.cells.set i md⟩

/-- A Go context as the director sees it: references to the incoming and
outgoing metadata attached to it. -/
structure GoContext where
  incomingMD : Option Nat
  outgoingMD : Option Nat
deriving DecidableEq, Repr

/-- A backend connection handle (`*grpc.ClientConn`), opaque to the proxy;
identified by a number. -/
abbrev ClientConn := Nat

/-- The director of proto_codec.go for a fixed backend connection: reads the
incoming metadata, attaches a deep copy of it as the outgoing metadata of a
derived context (allocating a fresh cell), and returns that context, the
fixed connection and a nil error. -/
def DefaultDirector (cc : ClientConn) (s : MDStore) (ctx : GoContext)
    (fullMethodName : String) : MDStore × GoContext × ClientConn × Option GoErr :=
  let md := s.readRef ctx.incomingMD
  (⟨s.cells ++ [MD.copy md]⟩,
   { ctx with outgoingMD := some s.cells.length }, cc, none)

/-- Overwriting a freshly appended cell leaves every pre-existing cell
unchanged. -/
lemma getD_set_fresh_append {α : Type} (l : List α) (x nb d : α) {i : Nat}
    (h : i < l.length) : ((l ++ [x]).set l.length nb).getD i d = l.getD i d := by
  have hne : l.length ≠ i := Nat.ne_of_gt h
  simp only [List.getD, List.get?_eq_getElem?]
  rw [List.getElem?_set_ne hne, List.getElem?_append_left h]

/-- C7: The default director always returns the fixed backend connection it
was built with and a nil error; the outgoing context carries exactly the
incoming metadata; and the copy is independent: the outgoing reference is a
fresh cell distinct from the incoming one, so overwriting the outgoing
metadata never changes the metadata seen through the inbound context's
incoming reference. Hypothesis: the incoming reference (when present) points
into the store. -/
theorem C7_default_director (cc : ClientConn) (s : MDStore) (ctx : GoContext)
    (m : String)
    (hin : ∀ i, ctx.incomingMD = some i → i < s.cells.length) :
    (DefaultDirector cc s ctx m).2.2.1 = cc
    ∧ (DefaultDirector cc s ctx m).2.2.2 = none
    ∧ (DefaultDirector cc s ctx m).1.readRef
        (DefaultDirector cc s ctx m).2.1.outgoingMD = s.readRef ctx.incomingMD
    ∧ (DefaultDirector cc s ctx m).2.1.incomingMD = ctx.incomingMD
    ∧ ∀ j nb, (DefaultDirector cc s ctx m).2.1.outgoingMD = some j →
        ((DefaultDirector cc s ctx m).1.writeRef j nb).readRef ctx.incomingMD
          = s.readRef ctx.incomingMD := by
  refine ⟨rfl, rfl, ?_, rfl, ?_⟩
  · simp [DefaultDirector, MDStore.readRef, MD.copy_eq,
      List.getD_append_right]
  · intro j nb hj
    simp only [DefaultDirector] at hj
    cases hj
    rcases hi : ctx.incomingMD with _ | i
    · simp [MDStore.readRef]
    · have hlt : i < s.cells.length := hin i hi
      simp only [MDStore.readRef, MDStore.writeRef, DefaultDirector]
      exact getD_set_fresh_append s.cells _ nb [] hlt

/-- Concrete instantiation of C7: one stored metadata map, referenced as the
inbound context's incoming metadata. -/
theorem C7_witness :
    let s : MDStore := ⟨[[("x-test", ["1"])]]⟩
    let ctx : GoContext := ⟨some 0, none⟩
    (DefaultDirector 7 s ctx "/pkg.Svc/M").2.2.1 = 7
    ∧ (DefaultDirector 7 s ctx "/pkg.Svc/M").2.2.2 = none
    ∧ (DefaultDirector 7 s ctx "/pkg.Svc/M").1.readRef
        (DefaultDirector 7 s ctx "/pkg.Svc/M").2.1.outgoingMD
        = s.readRef ctx.incomingMD
    ∧ (DefaultDirector 7 s ctx "/pkg.Svc/M").2.1.incomingMD = ctx.incomingMD
    ∧ ∀ j nb, (DefaultDirector 7 s ctx "/pkg.Svc/M").2.1.outgoingMD = some j →
        ((DefaultDirector 7 s ctx "/pkg.Svc/M").1.writeRef j nb).readRef
          ctx.incomingMD = s.readRef ctx.incomingMD :=
  C7_default_director 7 ⟨[[("x-test", ["1"])]]⟩ ⟨some 0, none⟩ "/pkg.Svc/M"
    (by intro i hi; simp at hi; simp [hi])

/-! ## Forwarding goroutines (handler.go)

Each forwarding goroutine owns one reused Frame, loops receiving a message
from its source stream and sending it to its destination stream, and sends
its terminal error on its result channel exactly once. A stream environment
fixes what the transport does: the list of messages `RecvMsg` yields
successfully, the error `RecvMsg` returns after them (`GoErr.eof` on a clean
end of input), the outcome of reading the outbound header, and the outcomes
of the header send and of each message send. The model computes the trace of
stream actions the goroutine performs and the error it reports. -/

/-- One observable action of a forwarding goroutine on its two streams. -/
inductive FAct where
  | recv (b : Bytes)
  | readHeader
  | sendHeader (md : MD)
  | send (b : Bytes)
deriving DecidableEq, Repr

/-- Environment of the outbound-to-inbound goroutine: messages the outbound
stream yields, its terminal receive error, the result of `src.Header()`, the
result of `dst.SendHeader` and the per-message results of `dst.SendMsg`
(indexed by message position, defaulting to success). -/
structure OutInEnv where
  msgs : List Bytes
  term : GoErr
  header : Except GoErr MD
  sendHeaderRes : Option GoErr
  sendRes : List (Option GoErr)
deriving Repr

/-- Loop body of `ForwardOutboundToInbound` over the remaining receivable
messages, carrying the message index i (the header is propagated when
i = 0, after the first successful receive and before the first send). -/
def fOIAux (env : OutInEnv) : List Bytes → Nat → List FAct × GoErr
  | [], _ => ([], env.term)
  | b :: rest, i =>
    if i = 0 then
      match env.header with
      | .error e => ([.recv b, .readHeader], e)
      | .ok md =>
        match env.sendHeaderRes with
        | some e => ([.recv b, .readHeader, .sendHeader md], e)
        | none =>
          match env.sendRes.getD i none with
          | some e => ([.recv b, .readHeader, .sendHeader md, .send b], e)
          | none =>
            let r := fOIAux env rest (i + 1)
            ([.recv b, .readHeader, .sendHeader md, .send b] ++ r.1, r.2)
    else
      match env.sendRes.getD i none with
      | some e => ([.recv b, .send b], e)
      | none =>
        let r := fOIAux env rest (i + 1)
        ([.recv b, .send b] ++ r.1, r.2)

/-- The outbound-to-inbound forwarding goroutine of handler.go: its action
trace and the error it sends on its result channel. -/
def Handler.ForwardOutboundToInbound (env : OutInEnv) : List FAct × GoErr :=
  fOIAux env env.msgs 0

/-- Environment of the inbound-to-outbound goroutine: messages the inbound
stream yields, its terminal receive error and the per-message results of
`dst.SendMsg`. -/
structure InOutEnv where
  msgs : List Bytes
  term : GoErr
  sendRes : List (Option GoErr)
deriving Repr

/-- Loop body of `ForwardInboundToOutbound` over the remaining receivable
messages. -/
def fIOAux (env : InOutEnv) : List Bytes → Nat → List FAct × GoErr
  | [], _ => ([], env.term)
  | b :: rest, i =>
    match env.sendRes.getD i none with
    | some e => ([.recv b, .send b], e)
    | none =>
      let r := fIOAux env rest (i + 1)
      ([.recv b, .send b] ++ r.1, r.2)

/-- The inbound-to-outbound forwarding goroutine of handler.go: its action
trace and the error it sends on its result channel. -/
def Handler.ForwardInboundToOutbound (env : InOutEnv) : List FAct × GoErr :=
  fIOAux env env.msgs 0

/-- C3: When the outbound stream yields at least one message, the task reads
the outbound header and sends it to the inbound stream after the first
successful receive and before the first relayed send: if reading the header
fails, the task stops reporting that error having performed no send; if
sending the header fails, likewise; and when both succeed, the first four
actions are exactly receive, header read, header send, first-message send —
so header propagation happens-before delivery of the first relayed
message. -/
theorem C3_header_before_first_send (env : OutInEnv) (b : Bytes)
    (rest : List Bytes) (h : env.msgs = b :: rest) :
    match env.header, env.sendHeaderRes with
    | .error e, _ =>
        Handler.ForwardOutboundToInbound env = ([.recv b, .readHeader], e)
    | .ok md, some e =>
        Handler.ForwardOutboundToInbound env
          = ([.recv b, .readHeader, .sendHeader md], e)
    | .ok md, none =>
        (Handler.ForwardOutboundToInbound env).1.take 4
          = [.recv b, .readHeader, .sendHeader md, .send b] := by
  rcases henv : env.header with e | md <;>
    rcases hsh : env.sendHeaderRes with _ | e' <;>
      rcases hs : env.sendRes[0]?.getD none with _ | e'' <;>
        simp [Handler.ForwardOutboundToInbound, h, fOIAux, henv, hsh, hs,
          List.take_append]

/-- Concrete instantiation of C3: one outbound message with header available
and header send succeeding. -/
theorem C3_witness :
    (Handler.ForwardOutboundToInbound
      ⟨[[1, 2]], GoErr.eof, Except.ok [("k", ["v"])], none, []⟩).1.take 4
    = [FAct.recv [1, 2], FAct.readHeader, FAct.sendHeader [("k", ["v"])],
       FAct.send [1, 2]] :=
  C3_header_before_first_send
    ⟨[[1, 2]], GoErr.eof, Except.ok [("k", ["v"])], none, []⟩ [1, 2] [] rfl

/-! ## Relay engine (Handler.Handler of handler.go)

`Handler.Handler` resolves the method name, invokes the director, opens the
outbound client stream, starts both forwarding goroutines, and then runs a
two-iteration select loop over their two result channels. Each channel
delivers at most one value (each goroutine sends once and stops), so a run
of the loop is determined by the ordered list of channel deliveries the
scheduler produces. The model records the externally visible actions of the
engine and the error it returns. -/

/-- Delivery of one report on one of the two result channels. -/
inductive Event where
  | inbRep (e : GoErr)
  | outRep (e : GoErr)
deriving DecidableEq, Repr

/-- One externally visible action of the engine. -/
inductive HAct where
  | callDirector
  | newClientStream
  | closeSend
  | clientCancel
  | setTrailer (md : MD)
deriving DecidableEq, Repr

/-- Outcome of a run of the engine: it returned (with its action trace and
returned error, `none` being a nil error), or it is still blocked in the
select waiting for a delivery. -/
inductive HResult where
  | ret (acts : List HAct) (e : Option GoErr)
  | blocked (acts : List HAct)
deriving DecidableEq, Repr

/-- A run that has returned. -/
def HResult.isRet : HResult → Prop
  | .ret _ _ => True
  | .blocked _ => False

instance (r : HResult) : Decidable r.isRet := by
  cases r <;> simp [HResult.isRet] <;> infer_instance

/-- Environment fixing everything the engine's run depends on: the method
name extracted from the inbound stream (`none` when absent), the director's
returned connection-is-nil flag and error, the result of opening the
outbound client stream, the result of `clientStream.CloseSend`, the trailer
`clientStream.Trailer()` yields, and the ordered channel deliveries. -/
structure HandlerEnv where
  method : Option String
  directorErr : Option GoErr
  directorConnNil : Bool
  newStreamErr : Option GoErr
  closeSendRes : Option GoErr
  trailer : MD
  events : List Event
deriving Repr

/-- The reconciliation loop of `Handler.Handler` (`for i := 0; i < 2; i++`
over a select on the two result channels), with `fuel` the remaining
iterations. A delivery on the inbound-to-outbound channel: on `io.EOF` the
engine calls `CloseSend` (returning its error if it fails) and keeps
waiting; on any other error it cancels the outbound scope and returns an
internal error naming the inbound-forwarding failure. A delivery on the
outbound-to-inbound channel: the engine propagates the outbound trailer,
then returns that error verbatim unless it is `io.EOF`, in which case it
returns nil. Exhausting both iterations without returning falls through to
the defensive internal error. -/
def relayLoop (env : HandlerEnv) : Nat → List HAct → List Event → HResult
  | 0, acts, _ =>
      .ret acts (some (.status .internal
        "gRPC proxying should never reach this stage."))
  | _ + 1, acts, [] => .blocked acts
  | fuel + 1, acts, ev :: rest =>
    match ev with
    | .inbRep e =>
      if e = .eof then
        match env.closeSendRes with
        | some cerr => .ret (acts ++ [.closeSend]) (some cerr)
        | none => relayLoop env fuel (acts ++ [.closeSend]) rest
      else
        .ret (acts ++ [.clientCancel])
          (some (.status .internal
            ("failed proxying inbound to outbound: " ++ e.str)))
    | .outRep e =>
      if e = .eof then
        .ret (acts ++ [.setTrailer env.trailer]) none
      else
        .ret (acts ++ [.setTrailer env.trailer]) (some e)

/-- `Handler.Handler`: method resolution, director invocation, the nil-
connection guard, outbound stream opening, then the reconciliation loop. -/
def Handler.run (env : HandlerEnv) : HResult :=
  match env.method with
  | none =>
      .ret [] (some (.status .internal
        "lowLevelServerStream does not exist in context"))
  | some _ =>
    match env.directorErr with
    | some e => .ret [.callDirector] (some e)
    | none =>
      if env.directorConnNil then
        .ret [.callDirector] (some (.status .unavailable
          "target connection is nil"))
      else
        match env.newStreamErr with
        | some e => .ret [.callDirector, .newClientStream] (some e)
        | none =>
          relayLoop env 2 [.callDirector, .newClientStream] env.events

/-- C1: When the outbound-to-inbound task reports first, the engine
propagates the outbound trailer to the inbound stream in both cases (before
the outcome decides anything), returns exactly the reported error when it is
not a clean end of input, and returns nil when it is. Quantified over the
reported error, the trailer, the CloseSend behaviour and any later
deliveries. -/
theorem C1_outbound_first_trailer_and_status (m : String) (e : GoErr)
    (tr : MD) (cs : Option GoErr) (rest : List Event) :
    Handler.run ⟨some m, none, false, none, cs, tr, .outRep e :: rest⟩
      = .ret [.callDirector, .newClientStream, .setTrailer tr]
          (if e = .eof then none else some e) := by
  rcases he : e with _ | ⟨c, msg⟩ | msg <;>
    simp [Handler.run, relayLoop, he]

/-- C4: If the director errors, the engine returns that error value
unchanged and performs no outbound stream opening; if the director returns
a nil connection with a nil error, the engine returns the "unavailable"
status error, again without opening an outbound stream — the action trace is
exactly the director call. Quantified over the erroring and nil-connection
environments (in particular over what opening a stream would have done). -/
theorem C4_setup_director_failure (m : String) (e : GoErr)
    (ns cs : Option GoErr) (nil_conn : Bool) (tr : MD) (evs : List Event) :
    Handler.run ⟨some m, some e, nil_conn, ns, cs, tr, evs⟩
      = .ret [.callDirector] (some e)
    ∧ Handler.run ⟨some m, none, true, ns, cs, tr, evs⟩
      = .ret [.callDirector]
          (some (.status .unavailable "target connection is nil")) := by
  exact ⟨rfl, rfl⟩

/-- C2 as amended: when the inbound-to-outbound task reports first with a
genuine (non-EOF) error, the engine cancels the outbound scope and returns
an internal error describing the inbound-forwarding failure immediately,
regardless of any pending delivery from the other task; when it reports a
clean end of input, the engine half-closes the outbound send side and — if
the half-close succeeds — keeps waiting for the outbound-to-inbound task
rather than returning (it then reconciles that task's report as usual, and
is still blocked if that report has not arrived); if the half-close itself
fails, the engine returns the half-close error. -/
theorem C2_inbound_first (m : String) (tr : MD) (e e' ce : GoErr)
    (h : e ≠ .eof) (cs : Option GoErr) (rest : List Event) :
    Handler.run ⟨some m, none, false, none, cs, tr, .inbRep e :: rest⟩
      = .ret [.callDirector, .newClientStream, .clientCancel]
          (some (.status .internal
            ("failed proxying inbound to outbound: " ++ e.str)))
    ∧ Handler.run ⟨some m, none, false, none, none, tr,
        [.inbRep .eof, .outRep e']⟩
      = .ret [.callDirector, .newClientStream, .closeSend, .setTrailer tr]
          (if e' = .eof then none else some e')
    ∧ Handler.run ⟨some m, none, false, none, none, tr, [.inbRep .eof]⟩
      = .blocked [.callDirector, .newClientStream, .closeSend]
    ∧ Handler.run ⟨some m, none, false, none, some ce, tr,
        .inbRep .eof :: rest⟩
      = .ret [.callDirector, .newClientStream, .closeSend] (some ce) := by
  refine ⟨?_, ?_, rfl, rfl⟩
  · simp [Handler.run, relayLoop, h]
  · by_cases h2 : e' = .eof <;> simp [Handler.run, relayLoop, h2]

/-- Concrete instantiation of C2 as amended: the inbound task reports a
genuine "connection reset" error first; and, separately, reports a clean end
with a successful half-close followed by a clean outbound end. -/
theorem C2_witness :
    Handler.run ⟨some "/pkg.Svc/M", none, false, none, none, [],
        [.inbRep (.other "connection reset"), .outRep .eof]⟩
      = .ret [.callDirector, .newClientStream, .clientCancel]
          (some (.status .internal
            ("failed proxying inbound to outbound: "
              ++ (GoErr.other "connection reset").str)))
    ∧ Handler.run ⟨some "/pkg.Svc/M", none, false, none, none, [],
        [.inbRep .eof, .outRep .eof]⟩
      = .ret [.callDirector, .newClientStream, .closeSend, .setTrailer []]
          (if (GoErr.eof : GoErr) = .eof then none else some .eof)
    ∧ Handler.run ⟨some "/pkg.Svc/M", none, false, none, none, [],
        [.inbRep .eof]⟩
      = .blocked [.callDirector, .newClientStream, .closeSend]
    ∧ Handler.run ⟨some "/pkg.Svc/M", none, false, none,
        some (.other "close send failed"), [], [.inbRep .eof]⟩
      = .ret [.callDirector, .newClientStream, .closeSend]
          (some (.other "close send failed")) := by
  have h := C2_inbound_first "/pkg.Svc/M" [] (.other "connection reset")
    .eof (.other "close send failed") (by decide) none [.outRep .eof]
  exact ⟨h.1, h.2.1, h.2.2.1, h.2.2.2⟩

/-- Counterexample to C2 as stated: when the inbound task reports a clean
end of input but `CloseSend` fails, the engine does not continue waiting for
the outbound-to-inbound task — it returns the half-close error at once,
without propagating the trailer and without the success (nil) outcome the
pending clean outbound report would have produced. -/
theorem C2_counterexample :
    Handler.run ⟨some "/pkg.Svc/M", none, false, none,
        some (.other "close send failed"), [], [.inbRep .eof, .outRep .eof]⟩
      = .ret [.callDirector, .newClientStream, .closeSend]
          (some (.other "close send failed"))
    ∧ Handler.run ⟨some "/pkg.Svc/M", none, false, none,
        some (.other "close send failed"), [], [.inbRep .eof, .outRep .eof]⟩
      ≠ .ret [.callDirector, .newClientStream, .closeSend, .setTrailer []]
          none := by
  exact ⟨rfl, by decide⟩

/-- C9: With both forwarding tasks started, each result channel delivers
exactly one report; in whichever order the two reports arrive — and whatever
they are and whatever the half-close does — the reconciliation loop returns
rather than blocking. And on a (contract-violating, in reality unreachable)
delivery sequence in which neither select branch causes a return within the
loop's two iterations, the engine still returns, with the defensive internal
error, rather than hanging. -/
theorem C9_reconciliation_never_hangs (m : String) (tr : MD) (e1 e2 : GoErr)
    (cs : Option GoErr) :
    (Handler.run ⟨some m, none, false, none, cs, tr,
        [.inbRep e1, .outRep e2]⟩).isRet
    ∧ (Handler.run ⟨some m, none, false, none, cs, tr,
        [.outRep e2, .inbRep e1]⟩).isRet
    ∧ Handler.run ⟨some m, none, false, none, none, tr,
        [.inbRep .eof, .inbRep .eof]⟩
      = .ret [.callDirector, .newClientStream, .closeSend, .closeSend]
          (some (.status .internal
            "gRPC proxying should never reach this stage.")) := by
  refine ⟨?_, ?_, rfl⟩
  · by_cases h1 : e1 = .eof
    · subst h1
      rcases cs with _ | ce
      · by_cases h2 : e2 = .eof <;>
          simp [Handler.run, relayLoop, h2, HResult.isRet]
      · simp [Handler.run, relayLoop, HResult.isRet]
    · simp [Handler.run, relayLoop, h1, HResult.isRet]
  · by_cases h2 : e2 = .eof <;>
      simp [Handler.run, relayLoop, h2, HResult.isRet]

/-! ## Restricted-mode registrar (RegisterService of raw_proto_codec.go) -/

/-- Identifier of the relay handler (`streamer.Handler`, the single handler
every registered stream of the fake descriptor is bound to). -/
def relayHandlerId : Nat := 0

/-- A `grpc.StreamDesc` as RegisterService builds it: the method name, the
bound handler and the two streaming-direction flags. -/
structure StreamDescR where
  StreamName : String
  HandlerId : Nat
  ServerStreams : Bool
  ClientStreams : Bool
deriving DecidableEq, Repr

/-- A `grpc.ServiceDesc`: the fully-qualified service name and its stream
descriptors. -/
structure ServiceDescR where
  ServiceName : String
  Streams : List StreamDescR
deriving DecidableEq, Repr

/-- `RegisterService`: builds the fake service descriptor with the given
service name and, accumulated in order, one bidirectional stream descriptor
per listed method name, each bound to the relay handler. -/
def RegisterService (serviceName : String) (methodNames : List String) :
    ServiceDescR :=
  { ServiceName := serviceName
  , Streams := methodNames.foldl
      (fun acc m => acc ++
        [{ StreamName := m, HandlerId := relayHandlerId,
           ServerStreams := true, ClientStreams := true }]) [] }

/-- Outcome of dispatching one inbound call: the matching registered stream
handler is invoked (only then can the relay engine run and consult the
Director), or the call is rejected as unimplemented before any handler
runs. -/
inductive DispatchOutcome where
  | relayCall (handlerId : Nat)
  | unimplemented
deriving DecidableEq, Repr

/-- Modelled from the spec: the host gRPC server's dispatch table
(google.golang.org/grpc, not part of this repository). A call to
service/method is routed to the stream handler registered for that method of
that service; when the service or the method is not registered (and no
unknown-service handler is installed), the server terminates the call with a
"not implemented" condition without invoking any registered handler — so the
Director, which only the relay handler calls, is never invoked. -/
def serverDispatch (descs : List ServiceDescR) (service method : String) :
    DispatchOutcome :=
  match descs.find? (fun d => d.ServiceName == service) with
  | some d =>
    match d.Streams.find? (fun sd => sd.StreamName == method) with
    | some sd => .relayCall sd.HandlerId
    | none => .unimplemented
  | none => .unimplemented

/-- Accumulating one element per input on the right of a fold is a map. -/
lemma foldl_append_eq_map {α β : Type} (f : α → β) (l : List α)
    (acc : List β) :
    l.foldl (fun a x => a ++ [f x]) acc = acc ++ l.map f := by
  induction l generalizing acc with
  | nil => simp
  | cons x xs ih => simp [ih]

/-- C8: In restricted mode the constructed descriptor carries the given
service name and exposes exactly the listed method names, in order, each as
a stream with both directions enabled and bound to the relay handler; and a
call to a method of that service that is not in the list is dispatched to
"not implemented" without any handler — hence without the Director — being
invoked. -/
theorem C8_register_service_whitelist (svc : String) (ms : List String)
    (m : String) (h : m ∉ ms) :
    (RegisterService svc ms).ServiceName = svc
    ∧ (RegisterService svc ms).Streams.map StreamDescR.StreamName = ms
    ∧ (∀ sd ∈ (RegisterService svc ms).Streams,
        sd.ServerStreams = true ∧ sd.ClientStreams = true
          ∧ sd.HandlerId = relayHandlerId)
    ∧ serverDispatch [RegisterService svc ms] svc m
        = DispatchOutcome.unimplemented := by
  have hstreams : (RegisterService svc ms).Streams
      = ms.map (fun m => (⟨m, relayHandlerId, true, true⟩ : StreamDescR)) := by
    simp [RegisterService, foldl_append_eq_map]
  refine ⟨rfl, ?_, ?_, ?_⟩
  · simp [hstreams, List.map_map, Function.comp_def]
  · intro sd hsd
    rw [hstreams] at hsd
    rcases List.mem_map.mp hsd with ⟨x, _, rfl⟩
    exact ⟨rfl, rfl, rfl⟩
  · have hfind : List.find? (fun d => d.ServiceName == svc)
        [RegisterService svc ms] = some (RegisterService svc ms) := by
      simp [List.find?, RegisterService]
    have hnone : List.find? (fun sd => sd.StreamName == m)
        (RegisterService svc ms).Streams = none := by
      rw [List.find?_eq_none]
      intro sd hsd
      rw [hstreams] at hsd
      rcases List.mem_map.mp hsd with ⟨x, hx, rfl⟩
      have hxm : x ≠ m := fun hxm => h (hxm ▸ hx)
      simp [hxm]
    simp [serverDispatch, hfind, hnone]

/-- Concrete instantiation of C8: a two-method whitelist and a call to a
method outside it. -/
theorem C8_witness :
    (RegisterService "pkg.Svc" ["MethodA", "MethodB"]).ServiceName = "pkg.Svc"
    ∧ (RegisterService "pkg.Svc" ["MethodA", "MethodB"]).Streams.map
        StreamDescR.StreamName = ["MethodA", "MethodB"]
    ∧ (∀ sd ∈ (RegisterService "pkg.Svc" ["MethodA", "MethodB"]).Streams,
        sd.ServerStreams = true ∧ sd.ClientStreams = true
          ∧ sd.HandlerId = relayHandlerId)
    ∧ serverDispatch [RegisterService "pkg.Svc" ["MethodA", "MethodB"]]
        "pkg.Svc" "MethodC" = DispatchOutcome.unimplemented :=
  C8_register_service_whitelist "pkg.Svc" ["MethodA", "MethodB"] "MethodC"
    (by decide)
